import Mathlib

/-!
Shallow embedding of the TTP normalization and enrichment engine of the
ttp-scraper repository (src/utils.py, with the per-identifier resolution
loops of src/alienvault.py and src/cisa.py).  Pure Python functions become
Lean functions; the network (requests.get / raise_for_status) becomes an
explicit environment mapping a URL to a fetch outcome; code that can raise
an uncaught exception returns Except.
-/

namespace TtpScraper

/-- A resolved technique record, the `{"name": ..., "id": ..., "tactics": ...}`
dict returned by `MitreAttack.get_mitre_info` (src/utils.py). -/
structure TechniqueRecord where
  name : String
  id : String
  tactics : List String
deriving DecidableEq

/-- An ATT&CK technique object as seen through
`MitreAttackData.get_object_by_attack_id`: its `name` and, when the object
carries the `kill_chain_phases` attribute, the list of `phase_name` labels
(src/utils.py lines 71-77). `none` models a technique object without the
`kill_chain_phases` attribute. -/
structure Technique where
  name : String
  kill_chain_phases : Option (List String)
deriving DecidableEq

/-- The taxonomy index built by `prepare_mitre_attack_data`, abstracted to
its lookup behaviour: `get_object_by_attack_id tid` returns a technique
object or `None`. -/
def Taxonomy : Type := String → Option Technique

/-- The table `TID_REMAP` (src/utils.py lines 21-26). -/
def TID_REMAP : List (String × String) :=
  [("T1086", "T1059.001"),
   ("T1155", "T1059.002"),
   ("T1150", "T1547.011"),
   ("T1162", "T1547.011")]

/-- The remapper `remap_old_tid` (src/utils.py lines 33-34): `TID_REMAP.get(tid, tid)`. -/
def remap_old_tid (tid : String) : String :=
  match TID_REMAP.find? (fun p => p.1 == tid) with
  | some p => p.2
  | none => tid

/-- The goal test of `filter_goal_ttps` (src/utils.py line 40):
`"impact" in tactics or "exfiltration" in tactics`. -/
def isGoalTTP (r : TechniqueRecord) : Bool :=
  decide ("impact" ∈ r.tactics) || decide ("exfiltration" ∈ r.tactics)

/-- Python `list.remove`: delete the first element equal to `a`.  (In the
source it is only ever called with an element known to be present.) -/
def removeFirst {α : Type} [DecidableEq α] : List α → α → List α
  | [], _ => []
  | x :: xs, a => if x = a then xs else x :: removeFirst xs a

/-- The goal partition `filter_goal_ttps` (src/utils.py lines 36-46).  The first loop collects
the goal records in order; the second loop removes each collected goal from
the input list with `ttps.remove(g)`.  The returned pair is
(returned goals, input list after the in-place removals). -/
def filter_goal_ttps (ttps : List TechniqueRecord) :
    List TechniqueRecord × List TechniqueRecord :=
  let goals := ttps.foldl (fun acc ttp => if isGoalTTP ttp then acc ++ [ttp] else acc) []
  (goals, goals.foldl removeFirst ttps)

section FilterLemmas

variable {α : Type}

theorem foldl_filter_acc (p : α → Bool) (l : List α) (init : List α) :
    l.foldl (fun acc x => if p x then acc ++ [x] else acc) init = init ++ l.filter p := by
  induction l generalizing init with
  | nil => simp
  | cons x t ih =>
    cases hp : p x <;> simp [List.foldl, hp, ih, List.filter_cons, List.append_assoc]

variable [DecidableEq α]

theorem removeFirst_cons_ne (x a : α) (t : List α) (h : x ≠ a) :
    removeFirst (x :: t) a = x :: removeFirst t a := by
  simp [removeFirst, h]

theorem foldl_removeFirst_cons (p : α → Bool) (x : α) (hx : p x = false) :
    ∀ (gs : List α) (t : List α), (∀ g ∈ gs, p g = true) →
      gs.foldl removeFirst (x :: t) = x :: gs.foldl removeFirst t := by
  intro gs
  induction gs with
  | nil => intro t _; rfl
  | cons g gs ih =>
    intro t hall
    have hg : p g = true := hall g (by simp)
    have hne : x ≠ g := by
      intro e
      rw [e, hg] at hx
      exact Bool.noConfusion hx
    rw [List.foldl_cons, List.foldl_cons, removeFirst_cons_ne x g t hne]
    exact ih (removeFirst t g) (fun a ha => hall a (by simp [ha]))

theorem foldl_removeFirst_filter (p : α → Bool) (l : List α) :
    (l.filter p).foldl removeFirst l = l.filter (fun x => !(p x)) := by
  induction l with
  | nil => rfl
  | cons x t ih =>
    cases hp : p x with
    | true =>
      have h1 : (x :: t).filter p = x :: t.filter p := by simp [List.filter_cons, hp]
      have h2 : removeFirst (x :: t) x = t := by simp [removeFirst]
      rw [h1, List.foldl_cons, h2, ih]
      simp [List.filter_cons, hp]
    | false =>
      have h1 : (x :: t).filter p = t.filter p := by simp [List.filter_cons, hp]
      rw [h1, foldl_removeFirst_cons p x hp (t.filter p) t
        (fun g hg => List.of_mem_filter hg), ih]
      simp [List.filter_cons, hp]

end FilterLemmas

/-! ## The deprecation-fallback scrape (`MitreAttack.scrape_mitre_name`) -/

/-- Outcome of one `fetch(url)` call (src/utils.py lines 28-31):
`httpError` models `raise_for_status` raising `requests.HTTPError` (the only
exception class caught inside `scrape_mitre_name`); `netError` models any
other `requests` exception (connection failure, timeout), which no handler
catches; `page h1 meta` models a successful response, abstracted to the
stripped text of its first `<h1>` (if any) and the `content` attribute of
its first `<meta>` tag (if any). -/
inductive FetchResult where
  | httpError : FetchResult
  | netError : FetchResult
  | page : Option String → Option String → FetchResult
deriving DecidableEq

/-- The network environment: what `fetch` yields at each URL. -/
def Net : Type := String → FetchResult

/-- The constant `MITRE_BASE` (src/utils.py line 90). -/
def MITRE_BASE : String := "https://attack.mitre.org"

/-- Python `tid.split(".", 1)` preceded by the `"." in tid` test: `none`
when the string has no dot, otherwise the parts before and after the first
dot. -/
def splitDot : List Char → Option (List Char × List Char)
  | [] => none
  | c :: cs =>
    if c = '.' then some ([], cs)
    else
      match splitDot cs with
      | some (a, b) => some (c :: a, b)
      | none => none

/-- Python `str.zfill`: left-pad with `'0'` up to width `w`.  (The sign
handling of `str.zfill` is omitted; the inputs here are digit strings.) -/
def zfill (w : Nat) (s : String) : String :=
  if s.length < w then String.mk (List.replicate (w - s.length) '0') ++ s else s

/-- The candidate-URL list built at the top of `scrape_mitre_name`
(src/utils.py lines 91-98). -/
def scrape_candidates (tid : String) : List String :=
  match splitDot tid.data with
  | some (base, sub) =>
    [MITRE_BASE ++ "/techniques/" ++ String.mk base ++ "/" ++ zfill 3 (String.mk sub) ++ "/",
     MITRE_BASE ++ "/techniques/" ++ String.mk base ++ "/"]
  | none => [MITRE_BASE ++ "/techniques/" ++ tid ++ "/"]

/-- The substitution `re.sub(r":(?!:)", ": ", text)` (src/utils.py line 114): every colon
whose next character is not another colon is replaced by colon-space; the
inserted space is not rescanned. -/
def normColonsAux : List Char → List Char
  | [] => []
  | c :: rest =>
    if c == ':' && !(rest.head? == some ':') then c :: ' ' :: normColonsAux rest
    else c :: normColonsAux rest

/-- The title normalization applied to the extracted `<h1>` text. -/
def normColons (s : String) : String :=
  String.mk (normColonsAux s.data)

/-- Does the list start with `u r l =` up to ASCII case of the letters?
(The letter test of `re.search(r"url=(.+)$", content, flags=re.I)`.) -/
def urlEqHead (l : List Char) : Bool :=
  match l with
  | u :: r :: el :: eq :: _ =>
    (u.toLower == 'u') && (r.toLower == 'r') && (el.toLower == 'l') && (eq == '=')
  | _ => false

/-- The search `re.search(r"url=(.+)$", content, flags=re.I)`: scan for the first
position where `url=` (case-insensitive) is followed by at least one
character, and capture everything after the `=`.  (Newlines inside the
attribute value are not modelled.) -/
def searchUrlEqAux : List Char → Option (List Char)
  | [] => none
  | c :: cs =>
    if urlEqHead (c :: cs) && (cs.drop 3).length != 0 then some (cs.drop 3)
    else searchUrlEqAux cs

/-- String wrapper for `searchUrlEqAux`. -/
def searchUrlEq (content : String) : Option String :=
  (searchUrlEqAux content.data).map String.mk

/-- Strip all leading and trailing characters satisfying `p`. -/
def stripChars (p : Char → Bool) (l : List Char) : List Char :=
  ((l.dropWhile p).reverse.dropWhile p).reverse

/-- The cleanup `murl.group(1).strip().strip('"').strip("'")` (src/utils.py line 122). -/
def cleanTarget (t : String) : String :=
  String.mk (stripChars (fun c => c == '\x27')
    (stripChars (fun c => c == '"') (stripChars Char.isWhitespace t.data)))

/-- Does `s` start with `p`? (`str.startswith`, on the character lists.) -/
def listStartsWith : List Char → List Char → Bool
  | _, [] => true
  | [], _ :: _ => false
  | c :: cs, p :: ps => (c == p) && listStartsWith cs ps

/-- String wrapper for `listStartsWith`. -/
def strStartsWith (s p : String) : Bool :=
  listStartsWith s.data p.data

/-- The stdlib `urllib.parse.urljoin(MITRE_BASE, target)`, modelled for a base that is
a bare origin with no path: an absolute http(s) target is returned as is, a
root-relative target is appended to the base, and any other target is
appended after a slash.  (Scheme-relative `//host/...` targets are not
modelled.) -/
def urljoin (base target : String) : String :=
  if strStartsWith target "http://" || strStartsWith target "https://" then target
  else if strStartsWith target "/" then base ++ target
  else base ++ "/" ++ target

/-- How one candidate attempt of the inner `for _ in range(max_follow)`
loop ends: a canonical title was found (`return`), the candidate was
abandoned (`break` on HTTP error, hop-budget exhaustion, or a page with
neither usable heading nor redirect), or an uncaught exception propagated. -/
inductive AttemptResult where
  | found : String → AttemptResult
  | giveUp : AttemptResult
  | raised : AttemptResult
deriving DecidableEq

/-- The hop budget `max_follow = 5` (src/utils.py line 100). -/
def max_follow : Nat := 5

/-- One candidate attempt of `scrape_mitre_name` (src/utils.py lines
101-127), as a fuelled loop: the fuel is the remaining iterations of
`range(max_follow)`.  The second component counts the `fetch` calls the
attempt performed. -/
def tryCandidate (net : Net) : Nat → String → AttemptResult × Nat
  | 0, _ => (.giveUp, 0)
  | fuel + 1, url =>
    match net url with
    | .httpError => (.giveUp, 1)
    | .netError => (.raised, 1)
    | .page h1 meta =>
      if (h1.getD "") ≠ "" then (.found (normColons (h1.getD "")), 1)
      else
        match meta with
        | some content =>
          match searchUrlEq content with
          | some target =>
            let r := tryCandidate net fuel (urljoin MITRE_BASE (cleanTarget target))
            (r.1, r.2 + 1)
          | none => (.giveUp, 1)
        | none => (.giveUp, 1)

/-- The outer `for start_url in candidates` loop of `scrape_mitre_name`:
the first candidate that yields a title wins; an abandoned candidate moves
to the next; an uncaught exception propagates (`Except.error`). -/
def scrapeLoop (net : Net) : List String → Except Unit (Option String)
  | [] => .ok none
  | url :: rest =>
    match (tryCandidate net max_follow url).1 with
    | .found name => .ok (some name)
    | .giveUp => scrapeLoop net rest
    | .raised => .error ()

/-- The fallback scrape `MitreAttack.scrape_mitre_name` (src/utils.py lines 87-128). -/
def scrape_mitre_name (net : Net) (tid : String) : Except Unit (Option String) :=
  scrapeLoop net (scrape_candidates tid)

/-- The resolution operation `MitreAttack.get_mitre_info` (src/utils.py lines 70-85).  The Python
truthiness tests become: `if technique:` — the option is `some`; `if name:`
— the scraped name is nonempty. -/
def get_mitre_info (tax : Taxonomy) (net : Net) (tid : String) :
    Except Unit TechniqueRecord :=
  match tax tid with
  | some technique =>
    match technique.kill_chain_phases with
    | some phases => .ok ⟨technique.name, tid, phases⟩
    | none => .ok ⟨technique.name, tid, []⟩
  | none =>
    match scrape_mitre_name net tid with
    | .error e => .error e
    | .ok (some name) =>
      if name ≠ "" then .ok ⟨name, tid, []⟩ else .ok ⟨"", tid, []⟩
    | .ok none => .ok ⟨"", tid, []⟩

/-- The per-identifier resolution step performed by the callers
(src/alienvault.py lines 82-83, src/cisa.py lines 134-136): remap, then
`get_mitre_info`. -/
def resolve (tax : Taxonomy) (net : Net) (x : String) : Except Unit TechniqueRecord :=
  get_mitre_info tax net (remap_old_tid x)

/-! ## Taxonomy store construction (`MitreAttack.prepare_mitre_attack_data`) -/

/-- The URL `MITRE_ENTERPRISE_ATTACK` (src/utils.py line 15). -/
def MITRE_ENTERPRISE_ATTACK : String :=
  "https://raw.githubusercontent.com/mitre/cti/master/enterprise-attack/enterprise-attack.json"

/-- The URL `MITRE_MOBILE_ATTACK` (src/utils.py line 16). -/
def MITRE_MOBILE_ATTACK : String :=
  "https://raw.githubusercontent.com/mitre/cti/master/mobile-attack/mobile-attack.json"

/-- The URL `MITRE_ICS_ATTACK` (src/utils.py line 17). -/
def MITRE_ICS_ATTACK : String :=
  "https://raw.githubusercontent.com/mitre/cti/master/ics-attack/ics-attack.json"

/-- The constructor `MitreAttack.prepare_mitre_attack_data` (src/utils.py lines 52-68).
`f url` models `fetch(url)` (body or exception); `p body` models
`json.loads` plus `mem_store.add` of one dataset (parsed dataset of type
`α`, or exception).  No exception is caught, so any failure propagates and
aborts construction; on success all three parsed datasets are in the
store. -/
def prepare_mitre_attack_data {α : Type} (f : String → Except Unit String)
    (p : String → Except Unit α) : Except Unit (List α) :=
  match f MITRE_ENTERPRISE_ATTACK with
  | .error e => .error e
  | .ok body₁ =>
    match p body₁ with
    | .error e => .error e
    | .ok enterprise =>
      match f MITRE_MOBILE_ATTACK with
      | .error e => .error e
      | .ok body₂ =>
        match p body₂ with
        | .error e => .error e
        | .ok mobile =>
          match f MITRE_ICS_ATTACK with
          | .error e => .error e
          | .ok body₃ =>
            match p body₃ with
            | .error e => .error e
            | .ok ics => .ok [enterprise, mobile, ics]

/-! ## The identifier-extraction regex `TTP_REGEX` (src/utils.py line 19)

`TTP_REGEX = r"\b(T\d{4}(?:\.\d{1,3})?)\b"`, used with `re.finditer` over a
report's text blob (src/cisa.py lines 131-137).  The scan below models the
regex engine on that pattern: at each position, a word boundary, a literal
`T`, exactly four digits, then greedily three, two or one suffix digits
after a dot (each checked against the trailing word boundary, as the
engine's backtracking does), falling back to the bare four-digit match. -/

/-- Regex word character (`\w`), ASCII. -/
def isWordChar (c : Char) : Bool :=
  c.isAlphanum || c == '_'

/-- The boundary `\b` on the left of the token, given the preceding character (`none` at
the start of the blob); the token itself starts with the word char `T`. -/
def boundaryBefore : Option Char → Bool
  | none => true
  | some c => !(isWordChar c)

/-- The boundary `\b` on the right of the token, given the remainder of the blob; the
token ends with a digit. -/
def boundaryAfter : List Char → Bool
  | [] => true
  | c :: _ => !(isWordChar c)

/-- All characters are ASCII digits (`\d`). -/
def allDigits (l : List Char) : Bool :=
  l.all Char.isDigit

/-- Try to match exactly `k` suffix digits followed by a word boundary. -/
def trySuffixLen (ds : List Char) (k : Nat) : Option (List Char × List Char) :=
  if (ds.take k).length == k && allDigits (ds.take k) && boundaryAfter (ds.drop k) then
    some (ds.take k, ds.drop k)
  else none

/-- The greedy `\.\d{1,3}` suffix with backtracking: three digits, else
two, else one. -/
def trySuffix (ds : List Char) : Option (List Char × List Char) :=
  match trySuffixLen ds 3 with
  | some r => some r
  | none =>
    match trySuffixLen ds 2 with
    | some r => some r
    | none => trySuffixLen ds 1

/-- Try to match `TTP_REGEX` at the current position; on success return
the captured token and the remainder of the blob. -/
def matchTTPAt (prev : Option Char) (l : List Char) : Option (List Char × List Char) :=
  if boundaryBefore prev then
    match l with
    | [] => none
    | c :: rest =>
      if c = 'T' then
        if (rest.take 4).length == 4 && allDigits (rest.take 4) then
          match rest.drop 4 with
          | [] =>
            if boundaryAfter (rest.drop 4) then some ('T' :: rest.take 4, rest.drop 4)
            else none
          | d :: ds =>
            if d = '.' then
              match trySuffix ds with
              | some (suf, rest2) => some ('T' :: rest.take 4 ++ '.' :: suf, rest2)
              | none =>
                if boundaryAfter (rest.drop 4) then some ('T' :: rest.take 4, rest.drop 4)
                else none
            else
              if boundaryAfter (rest.drop 4) then some ('T' :: rest.take 4, rest.drop 4)
              else none
        else none
      else none
  else none

/-- The scan `re.finditer(TTP_REGEX, blob)`: scan left to right, resuming after each
match; the fuel (instantiated with the blob length) bounds the scan, each
step consuming at least one character. -/
def scanTTPs : Nat → Option Char → List Char → List (List Char)
  | 0, _, _ => []
  | _ + 1, _, [] => []
  | fuel + 1, prev, c :: cs =>
    match matchTTPAt prev (c :: cs) with
    | some (tok, rest) => tok :: scanTTPs fuel tok.getLast? rest
    | none => scanTTPs fuel (some c) cs

/-- The identifier tokens `TTP_REGEX` produces on a text blob. -/
def ttp_regex_findall (blob : String) : List String :=
  (scanTTPs blob.data.length none blob.data).map (fun t => String.mk t)

/-- The shape the regex can capture: `T`, four digits, optionally a dot and
one to three digits. -/
def tokenShape13 (l : List Char) : Bool :=
  match l with
  | [] => false
  | c :: m =>
    (c == 'T') && (m.take 4).length == 4 && allDigits (m.take 4) &&
      (match m.drop 4 with
       | [] => true
       | d :: ds =>
         (d == '.') && decide (1 ≤ ds.length) && decide (ds.length ≤ 3) && allDigits ds)

/-- The spec's TechniqueIdentifier pattern, written from the spec's words:
`T####` or `T####.###` — a 4-digit base id with an optional sub-technique
suffix of exactly 3 digits. -/
def specTechniqueIdentifierPattern (s : String) : Bool :=
  match s.data with
  | 'T' :: m =>
    (m.take 4).length == 4 && allDigits (m.take 4) &&
      (match m.drop 4 with
       | [] => true
       | '.' :: ds => decide (ds.length = 3) && allDigits ds
       | _ => false)
  | _ => false

/-- The accumulation loop of `get_ttps` in src/cisa.py (lines 131-137):
for each regex token, skip it when a record with `id` equal to the raw
(pre-remap) token is already accumulated, otherwise remap and resolve. -/
def cisa_accumulate (tax : Taxonomy) (net : Net) :
    List String → List TechniqueRecord → Except Unit (List TechniqueRecord)
  | [], acc => .ok acc
  | tid :: rest, acc =>
    if acc.any (fun t => t.id == tid) then cisa_accumulate tax net rest acc
    else
      match get_mitre_info tax net (remap_old_tid tid) with
      | .error e => .error e
      | .ok r => cisa_accumulate tax net rest (acc ++ [r])

/-- The function `get_ttps` of src/cisa.py: extract tokens with `TTP_REGEX`, then
accumulate resolved records. -/
def cisa_get_ttps (tax : Taxonomy) (net : Net) (blob : String) :
    Except Unit (List TechniqueRecord) :=
  cisa_accumulate tax net (ttp_regex_findall blob) []

/-! ## Claim theorems -/

/-- C7: the identifier remapper is idempotent: for every identifier string
`x`, `remap_old_tid (remap_old_tid x) = remap_old_tid x` — no mapped value
of `TID_REMAP` is itself a key. -/
theorem remap_old_tid_idempotent (x : String) :
    remap_old_tid (remap_old_tid x) = remap_old_tid x := by
  by_cases h1 : x = "T1086"
  · subst h1; rfl
  by_cases h2 : x = "T1155"
  · subst h2; rfl
  by_cases h3 : x = "T1150"
  · subst h3; rfl
  by_cases h4 : x = "T1162"
  · subst h4; rfl
  have e1 : ("T1086" == x) = false := beq_eq_false_iff_ne.mpr (Ne.symm h1)
  have e2 : ("T1155" == x) = false := beq_eq_false_iff_ne.mpr (Ne.symm h2)
  have e3 : ("T1150" == x) = false := beq_eq_false_iff_ne.mpr (Ne.symm h3)
  have e4 : ("T1162" == x) = false := beq_eq_false_iff_ne.mpr (Ne.symm h4)
  have hfix : remap_old_tid x = x := by
    simp [remap_old_tid, TID_REMAP, List.find?, e1, e2, e3, e4]
  rw [hfix, hfix]

/-- C3: `filter_goal_ttps` returns exactly the records whose tactics
contain `"impact"` or `"exfiltration"`, in input order; it removes exactly
those records from the input list, leaving the rest in input order; both
outputs are subsequences of the input, and together they are a permutation
of the input (so re-merging them by original position reconstructs it). -/
theorem filter_goal_ttps_spec (ttps : List TechniqueRecord) :
    (filter_goal_ttps ttps).1 = ttps.filter isGoalTTP ∧
    (filter_goal_ttps ttps).2 = ttps.filter (fun r => !(isGoalTTP r)) ∧
    (∀ r, r ∈ (filter_goal_ttps ttps).1 →
      ("impact" ∈ r.tactics ∨ "exfiltration" ∈ r.tactics)) ∧
    ((filter_goal_ttps ttps).1).Sublist ttps ∧
    ((filter_goal_ttps ttps).2).Sublist ttps ∧
    ((filter_goal_ttps ttps).1 ++ (filter_goal_ttps ttps).2).Perm ttps := by
  have hg : ttps.foldl (fun acc ttp => if isGoalTTP ttp then acc ++ [ttp] else acc) [] =
      ttps.filter isGoalTTP := by
    rw [foldl_filter_acc]; rfl
  have h1 : (filter_goal_ttps ttps).1 = ttps.filter isGoalTTP := by
    simp only [filter_goal_ttps]; exact hg
  have h2 : (filter_goal_ttps ttps).2 = ttps.filter (fun r => !(isGoalTTP r)) := by
    simp only [filter_goal_ttps]
    rw [hg]
    exact foldl_removeFirst_filter isGoalTTP ttps
  refine ⟨h1, h2, ?_, ?_, ?_, ?_⟩
  · intro r hr
    rw [h1] at hr
    have := List.of_mem_filter hr
    simpa [isGoalTTP] using this
  · rw [h1]; exact List.filter_sublist ttps
  · rw [h2]; exact List.filter_sublist ttps
  · rw [h1, h2]; exact List.filter_append_perm isGoalTTP ttps

/-- Witness for C3 at the spec's own scenario list. -/
theorem filter_goal_ttps_spec_witness :
    (filter_goal_ttps [⟨"PowerShell", "T1059.001", ["execution"]⟩,
        ⟨"Exfiltration Over Web Service", "T1567", ["exfiltration"]⟩]).1 =
      [⟨"Exfiltration Over Web Service", "T1567", ["exfiltration"]⟩] ∧
    (filter_goal_ttps [⟨"PowerShell", "T1059.001", ["execution"]⟩,
        ⟨"Exfiltration Over Web Service", "T1567", ["exfiltration"]⟩]).2 =
      [⟨"PowerShell", "T1059.001", ["execution"]⟩] :=
  ⟨((filter_goal_ttps_spec [⟨"PowerShell", "T1059.001", ["execution"]⟩,
      ⟨"Exfiltration Over Web Service", "T1567", ["exfiltration"]⟩]).1).trans (by decide),
   ((filter_goal_ttps_spec [⟨"PowerShell", "T1059.001", ["execution"]⟩,
      ⟨"Exfiltration Over Web Service", "T1567", ["exfiltration"]⟩]).2.1).trans (by decide)⟩

/-- C2: for an identifier whose remapped form is present in the taxonomy
index, the per-identifier resolution of the callers (remap, then
`get_mitre_info`) returns a record whose `id` is the remapped identifier
and whose `name` and `tactics` are the indexed technique's name and
kill-chain phase labels. -/
theorem resolve_indexed (tax : Taxonomy) (net : Net) (x : String) (t : Technique)
    (h : tax (remap_old_tid x) = some t) :
    resolve tax net x =
      .ok ⟨t.name, remap_old_tid x, t.kill_chain_phases.getD []⟩ := by
  unfold resolve get_mitre_info
  rw [h]
  cases hk : t.kill_chain_phases with
  | some phases => simp [hk]
  | none => simp [hk]

/-- Witness for C2 at the spec's scenario: `"T1086"` remaps to
`"T1059.001"`, which the index resolves to PowerShell/execution. -/
theorem resolve_indexed_witness :
    resolve (fun s => if s == "T1059.001" then some ⟨"PowerShell", some ["execution"]⟩ else none)
        (fun _ => FetchResult.httpError) "T1086" =
      .ok ⟨"PowerShell", remap_old_tid "T1086", (some ["execution"]).getD []⟩ :=
  resolve_indexed (fun s => if s == "T1059.001" then some ⟨"PowerShell", some ["execution"]⟩ else none)
    (fun _ => FetchResult.httpError) "T1086" ⟨"PowerShell", some ["execution"]⟩ rfl

/-- C4: taxonomy store construction is fail-fast: it succeeds exactly when
all three domain datasets (enterprise, mobile, ICS) fetch and parse
successfully, and on success the store holds all three parsed datasets —
there is no partial-taxonomy success. -/
theorem prepare_mitre_attack_data_fail_fast {α : Type}
    (f : String → Except Unit String) (p : String → Except Unit α) :
    ((∃ ds, prepare_mitre_attack_data f p = .ok ds) ↔
      ((∃ a, (f MITRE_ENTERPRISE_ATTACK).bind p = .ok a) ∧
       (∃ a, (f MITRE_MOBILE_ATTACK).bind p = .ok a) ∧
       (∃ a, (f MITRE_ICS_ATTACK).bind p = .ok a))) ∧
    (∀ ds, prepare_mitre_attack_data f p = .ok ds → ds.length = 3) := by
  unfold prepare_mitre_attack_data
  cases hE : f MITRE_ENTERPRISE_ATTACK with
  | error e => simp [hE, Except.bind]
  | ok bodyE =>
    cases hpE : p bodyE with
    | error e => simp [hE, hpE, Except.bind]
    | ok dE =>
      cases hM : f MITRE_MOBILE_ATTACK with
      | error e => simp [hE, hpE, hM, Except.bind]
      | ok bodyM =>
        cases hpM : p bodyM with
        | error e => simp [hE, hpE, hM, hpM, Except.bind]
        | ok dM =>
          cases hI : f MITRE_ICS_ATTACK with
          | error e => simp [hE, hpE, hM, hpM, hI, Except.bind]
          | ok bodyI =>
            cases hpI : p bodyI with
            | error e => simp [hE, hpE, hM, hpM, hI, hpI, Except.bind]
            | ok dI =>
              simp only [hpE, hM, hpM, hI, hpI]
              refine ⟨by simp [hE, hpE, hM, hpM, hI, hpI, Except.bind], ?_⟩
              intro ds hds
              injection hds with h'
              subst h'
              rfl

/-- Witness for C4: with every fetch and parse succeeding, construction
succeeds with all three datasets in the store. -/
theorem prepare_mitre_attack_data_witness :
    ([0, 0, 0] : List Nat).length = 3 :=
  (prepare_mitre_attack_data_fail_fast (fun _ => .ok "") (fun _ => .ok (0 : Nat))).2
    [0, 0, 0] rfl

theorem tryCandidate_no_raise (net : Net) (hnet : ∀ u, net u ≠ FetchResult.netError) :
    ∀ (fuel : Nat) (url : String), (tryCandidate net fuel url).1 ≠ AttemptResult.raised := by
  intro fuel
  induction fuel with
  | zero => intro url h; exact AttemptResult.noConfusion h
  | succ n ih =>
    intro url
    rw [tryCandidate]
    cases hu : net url with
    | httpError => simp
    | netError => exact absurd hu (hnet url)
    | page h1 meta =>
      by_cases hh : (h1.getD "") ≠ ""
      · simp [hh]
      · cases meta with
        | none => simp [hh]
        | some content =>
          cases hs : searchUrlEq content with
          | none => simp [hh, hs]
          | some target => simpa [hh, hs] using ih (urljoin MITRE_BASE (cleanTarget target))

theorem scrapeLoop_ok (net : Net) (hnet : ∀ u, net u ≠ FetchResult.netError) :
    ∀ urls : List String, ∃ o, scrapeLoop net urls = .ok o := by
  intro urls
  induction urls with
  | nil => exact ⟨none, rfl⟩
  | cons url rest ih =>
    rw [scrapeLoop]
    cases hr : (tryCandidate net max_follow url).1 with
    | found name => exact ⟨some name, rfl⟩
    | giveUp => exact ih
    | raised => exact absurd hr (tryCandidate_no_raise net hnet max_follow url)

theorem scrapeLoop_all_httpError (net : Net) (hall : ∀ u, net u = FetchResult.httpError) :
    ∀ urls : List String, scrapeLoop net urls = .ok none := by
  intro urls
  induction urls with
  | nil => rfl
  | cons url rest ih =>
    rw [scrapeLoop]
    have hgu : (tryCandidate net max_follow url).1 = AttemptResult.giveUp := by
      show (tryCandidate net (4 + 1) url).1 = AttemptResult.giveUp
      rw [tryCandidate, hall url]
    rw [hgu]
    exact ih

/-- C1 (amended): `get_mitre_info` returns a record of the fixed
three-field shape with `id = tid` whenever every fallback fetch outcome is
a page or an HTTP error response — the `except` clause catches only
`requests.HTTPError` — and when the identifier is absent from the taxonomy
index and every candidate fetch fails with an HTTP error it returns
`{name: "", id: tid, tactics: []}`.  A non-HTTP network error (connection
failure, timeout) during the fallback scrape propagates as an exception. -/
theorem get_mitre_info_found (tax : Taxonomy) (net : Net) (tid : String)
    (technique : Technique) (h : tax tid = some technique) :
    get_mitre_info tax net tid =
      .ok ⟨technique.name, tid, technique.kill_chain_phases.getD []⟩ := by
  unfold get_mitre_info
  rw [h]
  cases hk : technique.kill_chain_phases with
  | some phases => simp [hk]
  | none => simp [hk]

theorem get_mitre_info_scrape (tax : Taxonomy) (net : Net) (tid : String)
    (h : tax tid = none) :
    get_mitre_info tax net tid =
      match scrape_mitre_name net tid with
      | .error e => .error e
      | .ok (some name) =>
        if name ≠ "" then .ok ⟨name, tid, []⟩ else .ok ⟨"", tid, []⟩
      | .ok none => .ok ⟨"", tid, []⟩ := by
  unfold get_mitre_info
  rw [h]

theorem get_mitre_info_total (tax : Taxonomy) (net : Net) (tid : String)
    (hnet : ∀ u, net u ≠ FetchResult.netError) :
    (∃ r : TechniqueRecord, get_mitre_info tax net tid = .ok r ∧ r.id = tid) ∧
    ((tax tid = none) → (∀ u, net u = FetchResult.httpError) →
      get_mitre_info tax net tid = .ok ⟨"", tid, []⟩) := by
  constructor
  · cases ht : tax tid with
    | some technique =>
      exact ⟨⟨technique.name, tid, technique.kill_chain_phases.getD []⟩,
        get_mitre_info_found tax net tid technique ht, rfl⟩
    | none =>
      rw [get_mitre_info_scrape tax net tid ht]
      obtain ⟨o, ho⟩ := scrapeLoop_ok net hnet (scrape_candidates tid)
      rw [show scrape_mitre_name net tid = .ok o from ho]
      cases o with
      | none => exact ⟨⟨"", tid, []⟩, rfl, rfl⟩
      | some name =>
        by_cases hn : name ≠ ""
        · exact ⟨⟨name, tid, []⟩, by simp [hn], rfl⟩
        · exact ⟨⟨"", tid, []⟩, by simp [hn], rfl⟩
  · intro ht hall
    rw [get_mitre_info_scrape tax net tid ht,
      show scrape_mitre_name net tid = .ok none from
        scrapeLoop_all_httpError net hall (scrape_candidates tid)]

/-- Witness for C1 (amended): an identifier absent from the index, with
every candidate URL answering with an HTTP error, resolves to the
empty-name record without an exception. -/
theorem get_mitre_info_total_witness :
    get_mitre_info (fun _ => none) (fun _ => FetchResult.httpError) "T9999" =
      .ok ⟨"", "T9999", []⟩ :=
  (get_mitre_info_total (fun _ => none) (fun _ => FetchResult.httpError) "T9999"
    (fun _ h => FetchResult.noConfusion h)).2 rfl (fun _ => rfl)

/-- Counterexample to C1 as stated: a fallback-scrape network error that is
not an HTTP error response (e.g. a connection failure or timeout) is not
caught — `get_mitre_info` propagates the exception instead of returning
`{name: "", id: tid, tactics: []}`. -/
theorem get_mitre_info_raises_on_net_error :
    get_mitre_info (fun _ => none) (fun _ => FetchResult.netError) "T9999" =
      .error () := rfl

theorem splitDot_append (base sub : List Char) (h : '.' ∉ base) :
    splitDot (base ++ '.' :: sub) = some (base, sub) := by
  induction base with
  | nil => simp [splitDot]
  | cons c cs ih =>
    have hc : c ≠ '.' := by
      intro e
      exact h (by simp [e])
    have hcs : '.' ∉ cs := fun m => h (List.mem_cons_of_mem c m)
    simp [splitDot, hc, ih hcs]

theorem splitDot_none (l : List Char) (h : '.' ∉ l) : splitDot l = none := by
  induction l with
  | nil => rfl
  | cons c cs ih =>
    have hc : c ≠ '.' := by
      intro e
      exact h (by simp [e])
    have hcs : '.' ∉ cs := fun m => h (List.mem_cons_of_mem c m)
    simp [splitDot, hc, ih hcs]

theorem scrape_candidates_sub (base sub : String) (h : '.' ∉ base.data) :
    scrape_candidates (base ++ "." ++ sub) =
      [MITRE_BASE ++ "/techniques/" ++ base ++ "/" ++ zfill 3 sub ++ "/",
       MITRE_BASE ++ "/techniques/" ++ base ++ "/"] := by
  unfold scrape_candidates
  have hdot : ("." : String).data = ['.'] := rfl
  have hd : (base ++ "." ++ sub).data = base.data ++ '.' :: sub.data := by
    rw [String.data_append, String.data_append, hdot, List.append_assoc]
    rfl
  rw [hd, splitDot_append base.data sub.data h]

theorem scrape_candidates_nodot (tid : String) (h : '.' ∉ tid.data) :
    scrape_candidates tid = [MITRE_BASE ++ "/techniques/" ++ tid ++ "/"] := by
  unfold scrape_candidates
  rw [splitDot_none tid.data h]

theorem zfill_length (s : String) (h : s.length ≤ 3) : (zfill 3 s).length = 3 := by
  unfold zfill
  by_cases hlt : s.length < 3
  · rw [if_pos hlt]
    rw [String.length_append]
    have hmk : (String.mk (List.replicate (3 - s.length) '0')).length = 3 - s.length := by
      show (List.replicate (3 - s.length) '0').length = 3 - s.length
      exact List.length_replicate _ _
    rw [hmk]
    omega
  · rw [if_neg hlt]
    omega

/-- C5: an identifier with a sub-technique suffix (one containing `'.'`,
written `base ++ "." ++ sub` with the dot-free base) yields exactly two
candidate URLs — first the sub-technique URL with the suffix zero-padded to
3 digits, then the parent-technique URL — and an identifier without a dot
yields exactly one candidate URL. -/
theorem scrape_candidates_spec :
    (∀ base sub : String, '.' ∉ base.data →
      scrape_candidates (base ++ "." ++ sub) =
        [MITRE_BASE ++ "/techniques/" ++ base ++ "/" ++ zfill 3 sub ++ "/",
         MITRE_BASE ++ "/techniques/" ++ base ++ "/"]) ∧
    (∀ tid : String, '.' ∉ tid.data →
      scrape_candidates tid = [MITRE_BASE ++ "/techniques/" ++ tid ++ "/"]) ∧
    (∀ s : String, s.length ≤ 3 → (zfill 3 s).length = 3) :=
  ⟨scrape_candidates_sub, scrape_candidates_nodot, zfill_length⟩

/-- Witness for C5 at the spec's scenario: suffix `11` is padded to `011`
and the parent URL is the second candidate. -/
theorem scrape_candidates_spec_witness :
    scrape_candidates ("T1547" ++ "." ++ "11") =
      [MITRE_BASE ++ "/techniques/" ++ "T1547" ++ "/" ++ zfill 3 "11" ++ "/",
       MITRE_BASE ++ "/techniques/" ++ "T1547" ++ "/"] :=
  scrape_candidates_spec.1 "T1547" "11" (by decide)

theorem tryCandidate_count_le (net : Net) :
    ∀ (fuel : Nat) (url : String), (tryCandidate net fuel url).2 ≤ fuel := by
  intro fuel
  induction fuel with
  | zero => intro url; exact Nat.le_refl 0
  | succ n ih =>
    intro url
    rw [tryCandidate]
    cases net url with
    | httpError => simp
    | netError => simp
    | page h1 meta =>
      by_cases hh : (h1.getD "") ≠ ""
      · simp [hh]
      · cases meta with
        | none => simp [hh]
        | some content =>
          cases hs : searchUrlEq content with
          | none => simp [hh, hs]
          | some target =>
            simp only [hh, hs, if_neg]
            exact Nat.succ_le_succ (ih (urljoin MITRE_BASE (cleanTarget target)))

/-- C6: each candidate attempt of the fallback scrape performs at most
`max_follow = 5` fetches, and terminates even on a redirect loop: a page
that always answers with a relative meta-refresh target makes the attempt
give up after exactly 5 fetches, the relative target being resolved against
the reference site's base origin. -/
theorem scrape_redirect_bounded (net : Net) (url : String) :
    (tryCandidate net max_follow url).2 ≤ max_follow ∧
    (tryCandidate (fun _ => FetchResult.page none (some "url=/versions/v9/techniques/T1059/001/"))
        max_follow url).1 = AttemptResult.giveUp ∧
    (tryCandidate (fun _ => FetchResult.page none (some "url=/versions/v9/techniques/T1059/001/"))
        max_follow url).2 = max_follow ∧
    urljoin MITRE_BASE "/versions/v9/techniques/T1059/001/" =
      "https://attack.mitre.org/versions/v9/techniques/T1059/001/" :=
  ⟨tryCandidate_count_le net max_follow url, rfl, rfl, rfl⟩

/-- C8 (amended): the title normalization inserts one space after each
colon that is not immediately followed by another colon; in particular a
colon already followed by whitespace receives an additional space
(`"Technique:SubTechnique"` becomes `"Technique: SubTechnique"`, while
`"Technique: SubTechnique"` becomes `"Technique:  SubTechnique"`), and a
colon-free title is returned unchanged. -/
theorem normColons_amended :
    (∀ l : List Char, ':' ∉ l → normColonsAux l = l) ∧
    (∀ pre post : List Char, ':' ∉ pre →
      normColonsAux (pre ++ ':' :: post) =
        pre ++ ':' :: (if post.head? = some ':' then normColonsAux post
                       else ' ' :: normColonsAux post)) ∧
    normColons "Technique:SubTechnique" = "Technique: SubTechnique" ∧
    normColons "Technique: SubTechnique" = "Technique:  SubTechnique" := by
  refine ⟨?_, ?_, by decide, by decide⟩
  · intro l hl
    induction l with
    | nil => rfl
    | cons c cs ih =>
      have hc : (c == ':') = false := by
        refine beq_eq_false_iff_ne.mpr ?_
        intro e
        exact hl (by simp [e])
      have hcs : ':' ∉ cs := fun m => hl (List.mem_cons_of_mem c m)
      simp [normColonsAux, hc, ih hcs]
  · intro pre post hpre
    induction pre with
    | nil =>
      rw [List.nil_append, List.nil_append]
      cases hp : post.head? with
      | some c =>
        by_cases hc : c = ':'
        · subst hc
          simp [normColonsAux, hp]
        · simp [normColonsAux, hp, hc]
      | none => simp [normColonsAux, hp]
    | cons c cs ih =>
      have hc : (c == ':') = false := by
        refine beq_eq_false_iff_ne.mpr ?_
        intro e
        exact hpre (by simp [e])
      have hcs : ':' ∉ cs := fun m => hpre (List.mem_cons_of_mem c m)
      rw [List.cons_append]
      simp only [normColonsAux, hc, Bool.false_and, Bool.false_eq_true, if_false]
      rw [ih hcs, List.cons_append]

/-- Witness for C8 (amended), at a one-character prefix and suffix. -/
theorem normColons_amended_witness :
    normColonsAux (['a'] ++ ':' :: ['b']) =
      ['a'] ++ ':' :: (if (['b'] : List Char).head? = some ':' then normColonsAux ['b']
                       else ' ' :: normColonsAux ['b']) :=
  normColons_amended.2.1 ['a'] ['b'] (by decide)

/-- Counterexample to C8 as stated: a colon already followed by whitespace
is not left unchanged — the substitution `re.sub(r":(?!:)", ": ", text)`
keys on the next character not being a colon, not on it not being
whitespace, so an extra space is inserted. -/
theorem normColons_counterexample :
    normColons "Technique: SubTechnique" ≠ "Technique: SubTechnique" ∧
    normColons "Technique: SubTechnique" = "Technique:  SubTechnique" :=
  ⟨by decide, by decide⟩

theorem trySuffixLen_some (ds : List Char) (k : Nat) (suf rest : List Char)
    (h : trySuffixLen ds k = some (suf, rest)) :
    suf.length = k ∧ allDigits suf = true := by
  unfold trySuffixLen at h
  by_cases hc : ((ds.take k).length == k && allDigits (ds.take k) && boundaryAfter (ds.drop k)) = true
  · rw [if_pos hc] at h
    simp only [Option.some.injEq, Prod.mk.injEq] at h
    obtain ⟨h3, -⟩ := h
    subst h3
    simp only [Bool.and_eq_true, beq_iff_eq] at hc
    exact ⟨hc.1.1, hc.1.2⟩
  · rw [if_neg hc] at h
    exact Option.noConfusion h

theorem trySuffix_some (ds suf rest : List Char) (h : trySuffix ds = some (suf, rest)) :
    (1 ≤ suf.length ∧ suf.length ≤ 3) ∧ allDigits suf = true := by
  unfold trySuffix at h
  cases h3 : trySuffixLen ds 3 with
  | some r =>
    rw [h3] at h
    injection h with h'
    subst h'
    obtain ⟨hl, hd⟩ := trySuffixLen_some ds 3 suf rest h3
    exact ⟨⟨by omega, by omega⟩, hd⟩
  | none =>
    rw [h3] at h
    cases h2 : trySuffixLen ds 2 with
    | some r =>
      rw [h2] at h
      injection h with h'
      subst h'
      obtain ⟨hl, hd⟩ := trySuffixLen_some ds 2 suf rest h2
      exact ⟨⟨by omega, by omega⟩, hd⟩
    | none =>
      rw [h2] at h
      obtain ⟨hl, hd⟩ := trySuffixLen_some ds 1 suf rest h
      exact ⟨⟨by omega, by omega⟩, hd⟩

theorem tokenShape13_plain (cs : List Char) (hlen : (cs.take 4).length = 4)
    (hdig : allDigits (cs.take 4) = true) :
    tokenShape13 ('T' :: cs.take 4) = true := by
  have ht2 : (cs.take 4).drop 4 = [] := List.drop_of_length_le (le_of_eq hlen)
  simp [tokenShape13, List.take_take, ht2, hlen, hdig]

theorem tokenShape13_sub (cs suf : List Char) (hlen : (cs.take 4).length = 4)
    (hdig : allDigits (cs.take 4) = true) (h1 : 1 ≤ suf.length) (h3 : suf.length ≤ 3)
    (hsd : allDigits suf = true) :
    tokenShape13 ('T' :: (cs.take 4 ++ '.' :: suf)) = true := by
  have htake : (cs.take 4 ++ '.' :: suf).take 4 = cs.take 4 := List.take_left' hlen
  have hdrop : (cs.take 4 ++ '.' :: suf).drop 4 = '.' :: suf := List.drop_left' hlen
  simp [tokenShape13, htake, hdrop, hlen, hdig, h1, h3, hsd]

theorem matchTTPAt_shape (prev : Option Char) (l tok rest : List Char)
    (h : matchTTPAt prev l = some (tok, rest)) : tokenShape13 tok = true := by
  unfold matchTTPAt at h
  by_cases hb : boundaryBefore prev = true
  case neg =>
    rw [if_neg hb] at h
    exact Option.noConfusion h
  rw [if_pos hb] at h
  cases l with
  | nil => exact Option.noConfusion h
  | cons c cs =>
    simp only [] at h
    by_cases hT : c = 'T'
    case neg =>
      rw [if_neg hT] at h
      exact Option.noConfusion h
    rw [if_pos hT] at h
    subst hT
    by_cases h4 : ((cs.take 4).length == 4 && allDigits (cs.take 4)) = true
    case neg =>
      rw [if_neg h4] at h
      exact Option.noConfusion h
    rw [if_pos h4] at h
    simp only [Bool.and_eq_true, beq_iff_eq] at h4
    obtain ⟨hlen, hdig⟩ := h4
    cases hd : cs.drop 4 with
    | nil =>
      rw [hd] at h
      simp only [] at h
      have hba : boundaryAfter ([] : List Char) = true := rfl
      rw [if_pos hba] at h
      injection h with h'
      injection h' with htok hrest
      rw [← htok]
      exact tokenShape13_plain cs hlen hdig
    | cons d ds =>
      rw [hd] at h
      simp only [] at h
      by_cases hdot : d = '.'
      · rw [if_pos hdot] at h
        subst hdot
        cases hts : trySuffix ds with
        | some pr =>
          obtain ⟨suf, rest2⟩ := pr
          rw [hts] at h
          simp only [] at h
          injection h with h'
          injection h' with htok hrest
          rw [← htok]
          obtain ⟨⟨hs1, hs3⟩, hsd⟩ := trySuffix_some ds suf rest2 hts
          exact tokenShape13_sub cs suf hlen hdig hs1 hs3 hsd
        | none =>
          rw [hts] at h
          simp only [] at h
          have hba : boundaryAfter ('.' :: ds) = true := rfl
          rw [if_pos hba] at h
          injection h with h'
          injection h' with htok hrest
          rw [← htok]
          exact tokenShape13_plain cs hlen hdig
      · rw [if_neg hdot] at h
        by_cases hba : boundaryAfter (d :: ds) = true
        · rw [if_pos hba] at h
          injection h with h'
          injection h' with htok hrest
          rw [← htok]
          exact tokenShape13_plain cs hlen hdig
        · rw [if_neg hba] at h
          exact Option.noConfusion h

theorem scanTTPs_shape :
    ∀ (fuel : Nat) (prev : Option Char) (l tok : List Char),
      tok ∈ scanTTPs fuel prev l → tokenShape13 tok = true := by
  intro fuel
  induction fuel with
  | zero =>
    intro prev l tok h
    simp [scanTTPs] at h
  | succ n ih =>
    intro prev l tok h
    cases l with
    | nil => simp [scanTTPs] at h
    | cons c cs =>
      rw [scanTTPs] at h
      cases hm : matchTTPAt prev (c :: cs) with
      | none =>
        rw [hm] at h
        exact ih (some c) cs tok h
      | some pr =>
        obtain ⟨t, r⟩ := pr
        rw [hm] at h
        simp only [List.mem_cons] at h
        cases h with
        | inl he =>
          rw [he]
          exact matchTTPAt_shape prev (c :: cs) t r hm
        | inr hm2 => exact ih t.getLast? r tok hm2

/-- C9 (amended): every identifier token produced by the
identifier-extraction regex `TTP_REGEX` has the shape `T` followed by four
digits, optionally followed by a dot and a sub-technique suffix of one to
three digits (the regex suffix is `\d{1,3}`, not exactly three digits). -/
theorem ttp_regex_findall_shape (blob tok : String) (h : tok ∈ ttp_regex_findall blob) :
    tokenShape13 tok.data = true := by
  unfold ttp_regex_findall at h
  obtain ⟨t, ht, he⟩ := List.mem_map.mp h
  rw [← he]
  exact scanTTPs_shape blob.data.length none blob.data t ht

/-- Witness for C9 (amended): the token extracted from a small blob has the
captured shape. -/
theorem ttp_regex_findall_shape_witness :
    tokenShape13 ("T1547" : String).data = true :=
  ttp_regex_findall_shape "q T1547 q" "T1547" (by decide)

/-- Counterexample to C9 as stated: `TTP_REGEX` produces the token
`"T1547.11"`, whose sub-technique suffix has two digits, not three — it
does not match the spec's `T####` / `T####.###` TechniqueIdentifier
pattern. -/
theorem ttp_regex_counterexample :
    ttp_regex_findall "T1547.11" = ["T1547.11"] ∧
    specTechniqueIdentifierPattern "T1547.11" = false ∧
    specTechniqueIdentifierPattern "T1547.011" = true :=
  ⟨by decide, by decide, by decide⟩

/-- A small taxonomy index holding only `T1547.011`, used to exercise the
remap collision end to end. -/
def sampleTaxonomy : Taxonomy :=
  fun tid =>
    if tid == "T1547.011" then some ⟨"Plist Modification", some ["persistence"]⟩ else none

/-- A network on which every fetch fails with an HTTP error. -/
def sampleNet : Net := fun _ => FetchResult.httpError

/-- C10: the identifier remapper is not injective — `T1150` and `T1162`
are distinct identifiers that both remap to `T1547.011` — so resolution
yields structurally identical records for them, and the cisa accumulation
loop (whose duplicate check compares accumulated record ids against the
raw, pre-remap token) keeps both copies: no component deduplicates them. -/
theorem remap_old_tid_not_injective :
    remap_old_tid "T1150" = "T1547.011" ∧
    remap_old_tid "T1162" = "T1547.011" ∧
    ("T1150" : String) ≠ "T1162" ∧
    (∀ (tax : Taxonomy) (net : Net), resolve tax net "T1150" = resolve tax net "T1162") ∧
    cisa_get_ttps sampleTaxonomy sampleNet "T1150 and T1162" =
      .ok [⟨"Plist Modification", "T1547.011", ["persistence"]⟩,
           ⟨"Plist Modification", "T1547.011", ["persistence"]⟩] :=
  ⟨rfl, rfl, by decide, fun tax net => rfl, rfl⟩

end TtpScraper
